import Mathlib

/-!
Verification of the chat-bot orchestration layer: a shallow embedding of the
async task bridge (`src/utils/async_manager.py`), the duplicate-event filter
and webhook handlers (`src/app_firestore.py`), the persistence-backed pipeline
(`src/agency.py`), and the direct chat API endpoint, together with theorems
settling the stated behavioural properties.
-/

set_option autoImplicit false

namespace AsyncMgr

/-- One in-flight unit of asynchronous work: the `asyncio.Future` returned by
`run_coroutine_threadsafe`, with the metadata `submit_task` attaches
(`task_name`, `submit_time`).  The `id` field models object identity of the
future. -/
structure TaskHandle where
  id : Nat
  task_name : String
  submit_time : Nat
deriving DecidableEq, Repr

/-- Final status of a finished task, as observed by the done callback:
`future.cancelled()`, `future.exception() is not None`, or normal success. -/
inductive TaskStatus where
  | success
  | cancelled
  | failed (msg : String)
deriving DecidableEq, Repr

/-- Outcome category logged by the done callback. -/
inductive Outcome where
  | completedOk
  | wasCancelled
  | didFail
deriving DecidableEq, Repr

/-- State of `AsyncTaskManager`: the started flag, the shutdown event flag,
the pending task set (as a list), whether the loop thread is running, how many
event loops have been created over the manager's lifetime (`loopCount`), the
hand-off record of computations scheduled onto the loop (`scheduled`), and a
counter supplying fresh future identities. -/
structure Manager where
  started : Bool
  shutdownFlag : Bool
  loopRunning : Bool
  loopCount : Nat
  pending_tasks : List TaskHandle
  scheduled : List TaskHandle
  nextId : Nat
deriving DecidableEq, Repr

/-- The freshly constructed manager (`AsyncTaskManager.__init__`). -/
def mkManager : Manager :=
  { started := false, shutdownFlag := false, loopRunning := false,
    loopCount := 0, pending_tasks := [], scheduled := [], nextId := 0 }

/-- `AsyncTaskManager.start`: under the lock, if already started return
unchanged (only a warning is logged); otherwise set the started flag, create a
new event loop and start its thread. -/
def start (m : Manager) : Manager :=
  if m.started then m
  else { m with started := true, loopRunning := true, loopCount := m.loopCount + 1 }

/-- Result of a `submit_task` call: an exception, a permanent block on the
non-reentrant lock (the call never returns), or an accepted submission with
the updated manager state and the returned future. -/
inductive SubmitResult where
  | raised (msg : String)
  | deadlocked
  | accepted (state : Manager) (fut : TaskHandle)
deriving DecidableEq, Repr

/-- `AsyncTaskManager.submit_task`: the whole body runs holding `self._lock`.
Raise `RuntimeError("AsyncTaskManager is shutting down")` if the shutdown
event is set.  If the manager is not started, the body calls `start()`, which
opens with `with self._lock:` on the same non-reentrant `threading.Lock` the
caller already holds: the thread blocks forever — nothing is scheduled and no
future is returned (`deadlocked`).  Otherwise build the default task name from
the pending count, schedule the coroutine onto the loop
(`run_coroutine_threadsafe`, recorded in `scheduled`), attach name and
submission time to the future, add it to the pending set, register the done
callback, and return the future. -/
def submit_task (m : Manager) (name : Option String) (now : Nat) : SubmitResult :=
  if m.shutdownFlag then
    SubmitResult.raised "AsyncTaskManager is shutting down"
  else if m.started = false then
    SubmitResult.deadlocked
  else
    let task_name := name.getD ("Task-" ++ toString m.pending_tasks.length)
    let fut : TaskHandle := { id := m.nextId, task_name := task_name, submit_time := now }
    SubmitResult.accepted
      { m with
          scheduled := m.scheduled ++ [fut],
          pending_tasks := m.pending_tasks ++ [fut],
          nextId := m.nextId + 1 } fut

/-- `AsyncTaskManager._task_done_callback`: remove the future from the pending
set (`set.remove`, a `KeyError` if absent), then log exactly one outcome line —
cancelled, failed, or completed — with the elapsed duration. -/
def task_done_callback (m : Manager) (fut : TaskHandle) (st : TaskStatus) (now : Nat) :
    Except String (Manager × List (Outcome × Nat)) :=
  if fut ∈ m.pending_tasks then
    let m1 := { m with pending_tasks := m.pending_tasks.erase fut }
    let duration := now - fut.submit_time
    let out :=
      match st with
      | TaskStatus.cancelled => Outcome.wasCancelled
      | TaskStatus.failed _ => Outcome.didFail
      | TaskStatus.success => Outcome.completedOk
    Except.ok (m1, [(out, duration)])
  else
    Except.error "KeyError"

/-- The polling wait of `AsyncTaskManager.shutdown`: while the pending set is
non-empty and the deadline has not passed, sleep 0.1s.  Time is discretised in
poll steps; `comps` lists, per step, the futures whose done callbacks fire
(each removing itself from the pending set) during that sleep.  Returns the
set still pending when the loop exits and the number of sleeps performed. -/
def pollWait : List TaskHandle → List (List TaskHandle) → Nat →
    List TaskHandle × Nat
  | [], _, _ => ([], 0)
  | p, _, 0 => (p, 0)
  | p, comps, Nat.succ fuel =>
    let p1 := (comps.headD []).foldl (fun acc f => acc.erase f) p
    let r := pollWait p1 comps.tail fuel
    (r.1, r.2 + 1)

/-- Result of `shutdown`: the final manager state, the futures that were
explicitly cancelled, and how many poll sleeps the drain wait performed. -/
structure ShutdownResult where
  state : Manager
  cancelled : List TaskHandle
  pollSteps : Nat
deriving DecidableEq, Repr

/-- `AsyncTaskManager.shutdown(timeout)`: no-op if never started.  Otherwise
set the shutdown event, poll-wait up to `timeoutSteps` sleeps for the pending
set to drain, cancel every future still pending (each cancellation fires the
done callback, which erases it from the pending set), then stop the loop
(thread-safe) and join the loop thread. -/
def shutdown (m : Manager) (timeoutSteps : Nat) (comps : List (List TaskHandle)) :
    ShutdownResult :=
  if m.started = false then
    { state := m, cancelled := [], pollSteps := 0 }
  else
    let m1 := { m with shutdownFlag := true }
    let pw := pollWait m1.pending_tasks comps timeoutSteps
    let remaining := pw.1
    let m2 := { m1 with pending_tasks := remaining }
    let afterCancel := List.foldl (fun p f => p.erase f) m2.pending_tasks remaining
    let m3 := { m2 with pending_tasks := afterCancel, loopRunning := false }
    { state := m3, cancelled := remaining, pollSteps := pw.2 }

/-- Scenario harness: submit a batch of computations in order, collecting the
returned futures (a submission refused by the shutdown check contributes no
future; a submission that deadlocks hangs the whole batch, yielding `none`). -/
def submitMany (m : Manager) (names : List (Option String)) (now : Nat) :
    Option (Manager × List TaskHandle) :=
  match names with
  | [] => some (m, [])
  | n :: rest =>
    match submit_task m n now with
    | SubmitResult.accepted m1 fut =>
      match submitMany m1 rest now with
      | some (m2, futs) => some (m2, fut :: futs)
      | none => none
    | SubmitResult.raised _ => submitMany m rest now
    | SubmitResult.deadlocked => none

/-- Scenario harness: fire the done callback for each listed future in order,
with the final status `statusOf` assigns to it. -/
def completeAll (m : Manager) (futs : List TaskHandle)
    (statusOf : TaskHandle → TaskStatus) (now : Nat) : Manager :=
  match futs with
  | [] => m
  | f :: rest =>
    match task_done_callback m f (statusOf f) now with
    | Except.ok (m1, _) => completeAll m1 rest statusOf now
    | Except.error _ => completeAll m rest statusOf now

/-- Well-formedness: every pending future's identity is below the fresh-id
counter (true of every reachable manager state). -/
def Wf (m : Manager) : Prop :=
  ∀ f ∈ m.pending_tasks, f.id < m.nextId

end AsyncMgr

namespace AppFS

/-- The `processed_events` dict of `app_firestore.py`: event id mapped to the
timestamp of first sight, in insertion order. -/
def EventMap := List (String × Nat)

/-- `EVENT_EXPIRY_TIME = 60` seconds. -/
def EVENT_EXPIRY_TIME : Nat := 60

/-- `clean_old_events`: drop every entry whose age exceeds the expiry window
(entries with `current_time - timestamp > EVENT_EXPIRY_TIME` are collected and
popped; the rest stay). -/
def clean_old_events (events : List (String × Nat)) (current_time : Nat) :
    List (String × Nat) :=
  events.filter (fun e => ¬ (current_time - e.2 > EVENT_EXPIRY_TIME))

/-- Membership test `event_id in processed_events` used by both handlers. -/
def seenEvent (events : List (String × Nat)) (event_id : String) : Bool :=
  events.any (fun e => e.1 == event_id)

/-- Dict assignment `processed_events[event_id] = time.time()`: overwrite the
timestamp if the key is present, otherwise append a new entry. -/
def recordEvent (events : List (String × Nat)) (event_id : String) (now : Nat) :
    List (String × Nat) :=
  if events.any (fun e => e.1 == event_id) then
    events.map (fun e => if e.1 == event_id then (e.1, now) else e)
  else
    events ++ [(event_id, now)]

/-- Modelled from the spec: "the identifier is already recorded and not yet
expired (recorded less than 60 seconds ago)" — the spec-side reading of the
`seen` check, to be compared against the source's membership test. -/
def recordedUnexpired (events : List (String × Nat)) (event_id : String)
    (now : Nat) : Bool :=
  events.any (fun e => e.1 == event_id && decide (now - e.2 < EVENT_EXPIRY_TIME))

/-- Fields of a Slack event payload that the handlers inspect. -/
structure SlackEvent where
  client_msg_id : String
  ts : String
  bot_id : Option String
  thread_ts : Option String
  subtype : Option String
  text : String
deriving DecidableEq, Repr

/-- The derived event identifier
`f"{event.get('client_msg_id', '')}:{event.get('ts', '')}"`. -/
def eventIdOf (ev : SlackEvent) : String :=
  ev.client_msg_id ++ ":" ++ ev.ts

/-- Whether `pat` occurs at the start of `l`. -/
def charsStartWith : List Char → List Char → Bool
  | [], _ => true
  | _ :: _, [] => false
  | p :: ps, c :: cs => p == c && charsStartWith ps cs

/-- Whether `pat` occurs contiguously anywhere in `l` (Python `pat in text`). -/
def charsContain (pat : List Char) : List Char → Bool
  | [] => charsStartWith pat []
  | c :: cs => charsStartWith pat (c :: cs) || charsContain pat cs

/-- Python substring test `pat in s`. -/
def strContains (s pat : String) : Bool :=
  charsContain pat.toList s.toList

/-- Result of running one Slack event handler: the updated processed-events
dict and whether `_process_event` (hence the message pipeline) was invoked. -/
structure HandlerResult where
  events : List (String × Nat)
  invoked : Bool
deriving DecidableEq, Repr

/-- `handle_app_mention`: derive the event id; return if already processed;
otherwise record it and sweep; then skip bot messages and thread replies;
otherwise process the mention via `_process_event`. -/
def handle_app_mention (events : List (String × Nat)) (ev : SlackEvent)
    (now : Nat) : HandlerResult :=
  let event_id := eventIdOf ev
  if seenEvent events event_id then
    { events := events, invoked := false }
  else
    let events1 := recordEvent events event_id now
    let events2 := clean_old_events events1 now
    if ev.bot_id.isSome then
      { events := events2, invoked := false }
    else if ev.thread_ts.isSome then
      { events := events2, invoked := false }
    else
      { events := events2, invoked := true }

/-- `handle_message`: skip message subtypes, bot messages and thread replies;
derive the event id; return if already processed; otherwise record it and
sweep; then, if the text contains a mention of this bot, skip (app_mention
will handle it); otherwise process the message via `_process_event`.
`bot_user_id` is the id returned by `auth_test`. -/
def handle_message (events : List (String × Nat)) (ev : SlackEvent)
    (bot_user_id : String) (now : Nat) : HandlerResult :=
  if ev.subtype.isSome then
    { events := events, invoked := false }
  else if ev.bot_id.isSome then
    { events := events, invoked := false }
  else if ev.thread_ts.isSome then
    { events := events, invoked := false }
  else
    let event_id := eventIdOf ev
    if seenEvent events event_id then
      { events := events, invoked := false }
    else
      let events1 := recordEvent events event_id now
      let events2 := clean_old_events events1 now
      if strContains ev.text "<@" then
        if strContains ev.text ("<@" ++ bot_user_id ++ ">") then
          { events := events2, invoked := false }
        else
          { events := events2, invoked := true }
      else
        { events := events2, invoked := true }

end AppFS

namespace AgencyM

/-- Conversation threads as stored under the `threads` field of a
`slack_conversations` document. -/
def Threads := List (String × String)

/-- What the Firestore document read can do: raise, find no document, or
return a stored threads dictionary. -/
inductive LoadResult where
  | raised (msg : String)
  | absent
  | found (threads : List (String × String))

/-- External collaborators of `generate_response`: the Firestore read and
write outcomes for the conversation, and the agency completion viewed as a
function of the message and the loaded history. -/
structure Env where
  load : Option String → LoadResult
  save : Option String → Except String Unit
  completion : String → List (String × String) → String

/-- `get_threads_from_db`: return the stored threads if the document exists,
an empty dict if it does not, and — on any exception — log the error and
return an empty dict. -/
def get_threads_from_db (r : LoadResult) : List (String × String) :=
  match r with
  | LoadResult.raised _ => []
  | LoadResult.absent => []
  | LoadResult.found threads => threads

/-- `save_threads_to_db`: write the threads; on any exception, log
`Error saving threads to database: ...` and return normally.  The returned
list is the log output. -/
def save_threads_to_db (r : Except String Unit) : List String :=
  match r with
  | Except.ok _ => []
  | Except.error e => ["Error saving threads to database: " ++ e]

/-- `generate_response`: build the (per-call) agency whose thread callbacks
load via `get_threads_from_db` and save via `save_threads_to_db`, obtain the
completion for `message` against the loaded history, and return it (paired
here with the log lines the save callback produced). -/
def generate_response (message : String) (conversation_id : Option String)
    (env : Env) : String × List String :=
  let history := get_threads_from_db (env.load conversation_id)
  let reply := env.completion message history
  let logs := save_threads_to_db (env.save conversation_id)
  (reply, logs)

end AgencyM

namespace ChatApi

/-- The parsed JSON body of a `/chat` request: the fields `chat_api` reads. -/
structure ChatData where
  agent_id : Option String
  message : Option String
  conversation_id : Option String
deriving DecidableEq, Repr

/-- Python falsiness of an optional string (`not x`): missing or empty. -/
def pyFalsy : Option String → Bool
  | none => true
  | some s => s.isEmpty

/-- External collaborators of `chat_api`: agent lookup in Firestore and the
message pipeline (`process_message`), which may raise. -/
structure Env where
  agentFound : String → Bool
  pipeline : String → Except String String

/-- The HTTP response `chat_api` produces, plus whether the message pipeline
was invoked while producing it. -/
structure ChatResponse where
  status : Nat
  errorField : Option String
  responseField : Option String
  pipelineInvoked : Bool
deriving DecidableEq, Repr

/-- `chat_api`: reject an empty body with 400; derive the conversation id;
reject a missing `agent_id`, then a missing `message`, with 400 and an error
field; 404 when the agent is unknown; otherwise run the pipeline, answering
200 with the reply or 500 with the exception text. -/
def chat_api (data : Option ChatData) (user_id : Option String) (env : Env) :
    ChatResponse :=
  match data with
  | none =>
    { status := 400, errorField := some "No data provided",
      responseField := none, pipelineInvoked := false }
  | some d =>
    let agent_id := d.agent_id
    let message := d.message
    let _conversation_id :=
      if pyFalsy d.conversation_id then
        (agent_id.getD "") ++ ":" ++ (user_id.getD "") ++ ":demo_chat"
      else d.conversation_id.getD ""
    if pyFalsy agent_id then
      { status := 400, errorField := some "agent_id is required",
        responseField := none, pipelineInvoked := false }
    else if pyFalsy message then
      { status := 400, errorField := some "message is required",
        responseField := none, pipelineInvoked := false }
    else if env.agentFound (agent_id.getD "") = false then
      { status := 404,
        errorField := some ("Agent not found with ID: " ++ agent_id.getD ""),
        responseField := none, pipelineInvoked := false }
    else
      match env.pipeline (message.getD "") with
      | Except.ok reply =>
        { status := 200, errorField := none, responseField := some reply,
          pipelineInvoked := true }
      | Except.error e =>
        { status := 500, errorField := some e, responseField := none,
          pipelineInvoked := true }

end ChatApi

/-- The drain wait never performs more sleeps than its timeout allows. -/
theorem pollWait_steps_le (fuel : Nat) :
    ∀ (p : List AsyncMgr.TaskHandle) (comps : List (List AsyncMgr.TaskHandle)),
      (AsyncMgr.pollWait p comps fuel).2 ≤ fuel := by
  induction fuel with
  | zero =>
    intro p comps
    cases p <;> simp [AsyncMgr.pollWait]
  | succ f ih =>
    intro p comps
    cases p with
    | nil => simp [AsyncMgr.pollWait]
    | cons a t =>
      simp only [AsyncMgr.pollWait]
      exact Nat.succ_le_succ (ih _ _)

/-- Once the drain wait empties the pending set within `k` sleeps, giving it
any larger budget changes nothing: it stops at the same point. -/
theorem pollWait_drained_mono (k : Nat) :
    ∀ (T : Nat) (p : List AsyncMgr.TaskHandle)
      (comps : List (List AsyncMgr.TaskHandle)),
      k ≤ T → (AsyncMgr.pollWait p comps k).1 = [] →
      AsyncMgr.pollWait p comps T = AsyncMgr.pollWait p comps k := by
  induction k with
  | zero =>
    intro T p comps _ hdr
    cases p with
    | nil => cases T <;> simp [AsyncMgr.pollWait]
    | cons a t => simp [AsyncMgr.pollWait] at hdr
  | succ k ih =>
    intro T p comps hkT hdr
    cases p with
    | nil => cases T <;> simp [AsyncMgr.pollWait]
    | cons a t =>
      cases T with
      | zero => exact absurd hkT (by omega)
      | succ T' =>
        simp only [AsyncMgr.pollWait] at hdr ⊢
        rw [ih T' _ _ (Nat.le_of_succ_le_succ hkT) hdr]

/-- Cancelling every remaining future fires each one's done callback, which
erases it from the pending set; folding the erasures over the very list of
remaining futures leaves the set empty. -/
theorem foldl_erase_self (l : List AsyncMgr.TaskHandle) :
    List.foldl (fun p f => p.erase f) l l = [] := by
  induction l with
  | nil => rfl
  | cons f t ih =>
    simpa only [List.foldl_cons, List.erase_cons_head] using ih

/-- Shape of a batch of submissions on a started, not-shutting-down manager:
no submission deadlocks or raises, each accepted future is appended to the
pending set, the started and shutdown flags are preserved, the returned
futures carry the consecutive fresh identities starting at the old counter,
and the counter advances once per submission. -/
theorem submitMany_pending (names : List (Option String)) :
    ∀ (m : AsyncMgr.Manager) (now : Nat),
      m.started = true → m.shutdownFlag = false →
      ∃ m' futs, AsyncMgr.submitMany m names now = some (m', futs) ∧
        m'.pending_tasks = m.pending_tasks ++ futs ∧
        m'.started = true ∧
        m'.shutdownFlag = false ∧
        futs.map AsyncMgr.TaskHandle.id = List.range' m.nextId names.length ∧
        m'.nextId = m.nextId + names.length := by
  induction names with
  | nil =>
    intro m now hstart hflag
    exact ⟨m, [], rfl, by simp, hstart, hflag, by simp, by simp⟩
  | cons n rest ih =>
    intro m now hstart hflag
    obtain ⟨m', futs, heq, hpend, hstart', hflag', hmap, hnext⟩ := ih
      { m with
          scheduled := m.scheduled ++
            [⟨m.nextId, n.getD ("Task-" ++ toString m.pending_tasks.length), now⟩],
          pending_tasks := m.pending_tasks ++
            [⟨m.nextId, n.getD ("Task-" ++ toString m.pending_tasks.length), now⟩],
          nextId := m.nextId + 1 } now hstart hflag
    refine ⟨m', ⟨m.nextId, n.getD ("Task-" ++ toString m.pending_tasks.length), now⟩
      :: futs, ?_, ?_, hstart', hflag', ?_, ?_⟩
    · rw [hstart, hflag] at heq
      simp [AsyncMgr.submitMany, AsyncMgr.submit_task, hflag, hstart, heq]
    · rw [hpend]; simp
    · simp only [List.length_cons, List.range'_succ, List.map_cons,
        List.cons.injEq]
      exact ⟨trivial, by simpa using hmap⟩
    · simp only [List.length_cons]
      simp at hnext
      omega

/-- Firing the done callback for a batch of distinct futures that all sit at
the tail of the pending set removes exactly that batch. -/
theorem completeAll_drain (futs : List AsyncMgr.TaskHandle) :
    ∀ (p : List AsyncMgr.TaskHandle) (m : AsyncMgr.Manager)
      (statusOf : AsyncMgr.TaskHandle → AsyncMgr.TaskStatus) (now2 : Nat),
      m.pending_tasks = p ++ futs → futs.Nodup → (∀ f ∈ futs, f ∉ p) →
      (AsyncMgr.completeAll m futs statusOf now2).pending_tasks = p := by
  induction futs with
  | nil =>
    intro p m statusOf now2 hpend _ _
    simpa [AsyncMgr.completeAll] using hpend
  | cons f rest ih =>
    intro p m statusOf now2 hpend hnd hdisj
    have hf : f ∈ m.pending_tasks := by
      rw [hpend]; exact List.mem_append_right _ (List.mem_cons_self _ _)
    have herase : m.pending_tasks.erase f = p ++ rest := by
      rw [hpend, List.erase_append_right _ (hdisj f (List.mem_cons_self _ _)),
        List.erase_cons_head]
    simp only [AsyncMgr.completeAll, AsyncMgr.task_done_callback, hf, if_true,
      ite_true]
    exact ih p { m with pending_tasks := m.pending_tasks.erase f } statusOf now2
      (by simpa using herase) hnd.of_cons
      (fun g hg => hdisj g (List.mem_cons_of_mem _ hg))

/-- C1: every `submit_task` call made after the shutdown flag has been set
fails with the error stating the manager is shutting down; the computation is
never scheduled and the call is never silently accepted. -/
theorem submit_after_shutdown_fails (m : AsyncMgr.Manager) (name : Option String)
    (now : Nat) (h : m.shutdownFlag = true) :
    AsyncMgr.submit_task m name now =
      AsyncMgr.SubmitResult.raised "AsyncTaskManager is shutting down" := by
  simp [AsyncMgr.submit_task, h]

/-- Witness for C1 at a concrete shutting-down manager. -/
theorem submit_after_shutdown_fails_witness :
    AsyncMgr.submit_task { AsyncMgr.mkManager with shutdownFlag := true }
        (some "t") 3 =
      AsyncMgr.SubmitResult.raised "AsyncTaskManager is shutting down" :=
  submit_after_shutdown_fails
    { AsyncMgr.mkManager with shutdownFlag := true } (some "t") 3 rfl

/-- C2: on a started manager with the shutdown flag clear (the only state in
which submissions are accepted — an unstarted manager deadlocks in the lock
re-acquisition and accepts nothing), every accepted submission adds its handle
to the pending set exactly once (the handle was absent before and is counted
once afterwards), and the done callback removes it exactly once whatever the
outcome: firing the callback for every submitted task returns the pending set
to exactly its pre-submission contents. -/
theorem tasks_tracked_once_and_drain (m : AsyncMgr.Manager)
    (names : List (Option String))
    (statusOf : AsyncMgr.TaskHandle → AsyncMgr.TaskStatus) (now now2 : Nat)
    (hstart : m.started = true) (hflag : m.shutdownFlag = false)
    (hwf : AsyncMgr.Wf m) :
    ∃ m' futs, AsyncMgr.submitMany m names now = some (m', futs) ∧
      (∀ f ∈ futs, m'.pending_tasks.count f = m.pending_tasks.count f + 1 ∧
        m.pending_tasks.count f = 0) ∧
      (AsyncMgr.completeAll m' futs statusOf now2).pending_tasks =
        m.pending_tasks := by
  obtain ⟨m', futs, heq, hpend, hstart', hflag', hmap, hnext⟩ :=
    submitMany_pending names m now hstart hflag
  have hnd : futs.Nodup :=
    List.Nodup.of_map _ (hmap ▸ List.nodup_range' _ _ 1 Nat.one_pos)
  have hfresh : ∀ f ∈ futs, f ∉ m.pending_tasks := by
    intro f hf hmem
    have hid : f.id ∈ List.range' m.nextId names.length := by
      rw [← hmap]; exact List.mem_map_of_mem _ hf
    have hge := (List.mem_range'_1.mp hid).1
    have hlt := hwf f hmem
    omega
  refine ⟨m', futs, heq, ?_, ?_⟩
  · intro f hf
    have h0 : m.pending_tasks.count f = 0 :=
      List.count_eq_zero.mpr (hfresh f hf)
    exact ⟨by rw [hpend, List.count_append, h0,
      List.count_eq_one_of_mem hnd hf], h0⟩
  · exact completeAll_drain _ _ _ statusOf now2 hpend hnd hfresh

/-- Witness for C2: two tasks submitted to a started manager, one later
cancelled and one failed; the pending set drains back to empty. -/
theorem tasks_tracked_once_and_drain_witness :
    ∃ m' futs,
      AsyncMgr.submitMany
          { AsyncMgr.mkManager with
              started := true, loopRunning := true, loopCount := 1 }
          [some "a", none] 1 = some (m', futs) ∧
      (∀ f ∈ futs, m'.pending_tasks.count f =
          ({ AsyncMgr.mkManager with
              started := true, loopRunning := true,
              loopCount := 1 } : AsyncMgr.Manager).pending_tasks.count f + 1 ∧
        ({ AsyncMgr.mkManager with
            started := true, loopRunning := true,
            loopCount := 1 } : AsyncMgr.Manager).pending_tasks.count f = 0) ∧
      (AsyncMgr.completeAll m' futs
          (fun f => if f.id = 0 then AsyncMgr.TaskStatus.cancelled
            else AsyncMgr.TaskStatus.failed "boom") 2).pending_tasks =
        ({ AsyncMgr.mkManager with
            started := true, loopRunning := true,
            loopCount := 1 } : AsyncMgr.Manager).pending_tasks :=
  tasks_tracked_once_and_drain
    { AsyncMgr.mkManager with
        started := true, loopRunning := true, loopCount := 1 }
    [some "a", none]
    (fun f => if f.id = 0 then AsyncMgr.TaskStatus.cancelled
      else AsyncMgr.TaskStatus.failed "boom") 1 2 rfl rfl
    (by intro f hf; simp [AsyncMgr.mkManager] at hf)

/-- C3: `shutdown` on a started manager: when the pending set drains within
`k` poll sleeps and `k` is below the timeout, the wait stops polling after at
most `k` sleeps — strictly before the timeout elapses; the futures explicitly
cancelled are exactly those still pending when the wait ends; and once
`shutdown` returns, no submitted task remains in the pending set. -/
theorem shutdown_drain_cancel (m : AsyncMgr.Manager) (T k : Nat)
    (comps : List (List AsyncMgr.TaskHandle)) (hs : m.started = true) :
    ((AsyncMgr.pollWait m.pending_tasks comps k).1 = [] → k < T →
      (AsyncMgr.shutdown m T comps).pollSteps ≤ k ∧
      (AsyncMgr.shutdown m T comps).pollSteps < T) ∧
    (AsyncMgr.shutdown m T comps).cancelled =
      (AsyncMgr.pollWait m.pending_tasks comps T).1 ∧
    (AsyncMgr.shutdown m T comps).state.pending_tasks = [] := by
  have hsd : AsyncMgr.shutdown m T comps =
      { state :=
          { m with
              shutdownFlag := true,
              pending_tasks :=
                List.foldl (fun p f => p.erase f)
                  (AsyncMgr.pollWait m.pending_tasks comps T).1
                  (AsyncMgr.pollWait m.pending_tasks comps T).1,
              loopRunning := false },
        cancelled := (AsyncMgr.pollWait m.pending_tasks comps T).1,
        pollSteps := (AsyncMgr.pollWait m.pending_tasks comps T).2 } := by
    simp [AsyncMgr.shutdown, hs]
  refine ⟨?_, ?_, ?_⟩
  · intro hdr hkT
    have hmono := pollWait_drained_mono k T m.pending_tasks comps
      (Nat.le_of_lt hkT) hdr
    have hle := pollWait_steps_le k m.pending_tasks comps
    rw [hsd]
    simp only [hmono]
    exact ⟨hle, Nat.lt_of_le_of_lt hle hkT⟩
  · rw [hsd]
  · rw [hsd]
    exact foldl_erase_self _

/-- Witness for C3: one pending task that completes during the first sleep of
a two-step timeout. -/
theorem shutdown_drain_cancel_witness :
    ((AsyncMgr.pollWait
        ({ AsyncMgr.mkManager with
            started := true, loopRunning := true, loopCount := 1,
            pending_tasks := [⟨0, "t", 0⟩],
            nextId := 1 } : AsyncMgr.Manager).pending_tasks
        [[⟨0, "t", 0⟩]] 1).1 = [] → 1 < 2 →
      (AsyncMgr.shutdown
          { AsyncMgr.mkManager with
              started := true, loopRunning := true, loopCount := 1,
              pending_tasks := [⟨0, "t", 0⟩], nextId := 1 }
          2 [[⟨0, "t", 0⟩]]).pollSteps ≤ 1 ∧
      (AsyncMgr.shutdown
          { AsyncMgr.mkManager with
              started := true, loopRunning := true, loopCount := 1,
              pending_tasks := [⟨0, "t", 0⟩], nextId := 1 }
          2 [[⟨0, "t", 0⟩]]).pollSteps < 2) ∧
    (AsyncMgr.shutdown
        { AsyncMgr.mkManager with
            started := true, loopRunning := true, loopCount := 1,
            pending_tasks := [⟨0, "t", 0⟩], nextId := 1 }
        2 [[⟨0, "t", 0⟩]]).cancelled =
      (AsyncMgr.pollWait
        ({ AsyncMgr.mkManager with
            started := true, loopRunning := true, loopCount := 1,
            pending_tasks := [⟨0, "t", 0⟩],
            nextId := 1 } : AsyncMgr.Manager).pending_tasks
        [[⟨0, "t", 0⟩]] 2).1 ∧
    (AsyncMgr.shutdown
        { AsyncMgr.mkManager with
            started := true, loopRunning := true, loopCount := 1,
            pending_tasks := [⟨0, "t", 0⟩], nextId := 1 }
        2 [[⟨0, "t", 0⟩]]).state.pending_tasks = [] :=
  shutdown_drain_cancel
    { AsyncMgr.mkManager with
        started := true, loopRunning := true, loopCount := 1,
        pending_tasks := [⟨0, "t", 0⟩], nextId := 1 }
    2 1 [[⟨0, "t", 0⟩]] rfl

/-- C4: the claimed lazy-start path is a self-deadlock in the source.  With
the manager not started and not shutting down, `submit_task` holds the
non-reentrant `threading.Lock` and calls `start()`, which opens by acquiring
the same lock: the call blocks forever, nothing is ever scheduled, and no
handle is returned — contradicting the claim that the call lazily starts the
scheduler, schedules the computation, and returns the handle (terminating,
non-blocking). -/
theorem submit_lazy_start_deadlocks (m : AsyncMgr.Manager)
    (name : Option String) (now : Nat)
    (h1 : m.started = false) (h2 : m.shutdownFlag = false) :
    AsyncMgr.submit_task m name now = AsyncMgr.SubmitResult.deadlocked := by
  simp [AsyncMgr.submit_task, h1, h2]

/-- Witness for C4's failing input: the very first submission on a freshly
constructed manager deadlocks. -/
theorem submit_lazy_start_deadlocks_witness :
    AsyncMgr.submit_task AsyncMgr.mkManager (some "job") 7 =
      AsyncMgr.SubmitResult.deadlocked :=
  submit_lazy_start_deadlocks AsyncMgr.mkManager (some "job") 7 rfl rfl

/-- C5: the done callback, invoked on a handle that is in the pending set,
never raises: it removes the handle from the pending set (exactly one
occurrence) and logs exactly one outcome line — cancelled, failed, or
completed — carrying the elapsed duration. -/
theorem callback_removes_and_logs_once (m : AsyncMgr.Manager)
    (fut : AsyncMgr.TaskHandle) (st : AsyncMgr.TaskStatus) (now : Nat)
    (h : fut ∈ m.pending_tasks) :
    ∃ m' logs, AsyncMgr.task_done_callback m fut st now = Except.ok (m', logs) ∧
      m'.pending_tasks = m.pending_tasks.erase fut ∧
      m'.pending_tasks.count fut = m.pending_tasks.count fut - 1 ∧
      logs.length = 1 ∧
      (st = AsyncMgr.TaskStatus.cancelled →
        logs = [(AsyncMgr.Outcome.wasCancelled, now - fut.submit_time)]) ∧
      (∀ e, st = AsyncMgr.TaskStatus.failed e →
        logs = [(AsyncMgr.Outcome.didFail, now - fut.submit_time)]) ∧
      (st = AsyncMgr.TaskStatus.success →
        logs = [(AsyncMgr.Outcome.completedOk, now - fut.submit_time)]) := by
  refine ⟨{ m with pending_tasks := m.pending_tasks.erase fut },
          [(match st with
            | AsyncMgr.TaskStatus.cancelled => AsyncMgr.Outcome.wasCancelled
            | AsyncMgr.TaskStatus.failed _ => AsyncMgr.Outcome.didFail
            | AsyncMgr.TaskStatus.success => AsyncMgr.Outcome.completedOk,
            now - fut.submit_time)],
          ?_, ?_, ?_, ?_, ?_, ?_, ?_⟩ <;>
    cases st <;>
      simp [AsyncMgr.task_done_callback, h, List.count_erase_self]

/-- Witness for C5: a concrete cancelled task in a one-element pending set. -/
theorem callback_removes_and_logs_once_witness :
    ∃ m' logs,
      AsyncMgr.task_done_callback
          { AsyncMgr.mkManager with
              pending_tasks := [⟨0, "t", 2⟩], nextId := 1 }
          ⟨0, "t", 2⟩ AsyncMgr.TaskStatus.cancelled 5 = Except.ok (m', logs) ∧
      m'.pending_tasks =
        (({ AsyncMgr.mkManager with
              pending_tasks := [⟨0, "t", 2⟩],
              nextId := 1 } : AsyncMgr.Manager).pending_tasks).erase ⟨0, "t", 2⟩ ∧
      m'.pending_tasks.count ⟨0, "t", 2⟩ =
        (({ AsyncMgr.mkManager with
              pending_tasks := [⟨0, "t", 2⟩],
              nextId := 1 } : AsyncMgr.Manager).pending_tasks).count ⟨0, "t", 2⟩ - 1 ∧
      logs.length = 1 ∧
      (AsyncMgr.TaskStatus.cancelled = AsyncMgr.TaskStatus.cancelled →
        logs = [(AsyncMgr.Outcome.wasCancelled, 5 - (⟨0, "t", 2⟩ : AsyncMgr.TaskHandle).submit_time)]) ∧
      (∀ e, AsyncMgr.TaskStatus.cancelled = AsyncMgr.TaskStatus.failed e →
        logs = [(AsyncMgr.Outcome.didFail, 5 - (⟨0, "t", 2⟩ : AsyncMgr.TaskHandle).submit_time)]) ∧
      (AsyncMgr.TaskStatus.cancelled = AsyncMgr.TaskStatus.success →
        logs = [(AsyncMgr.Outcome.completedOk, 5 - (⟨0, "t", 2⟩ : AsyncMgr.TaskHandle).submit_time)]) :=
  callback_removes_and_logs_once
    { AsyncMgr.mkManager with pending_tasks := [⟨0, "t", 2⟩], nextId := 1 }
    ⟨0, "t", 2⟩ AsyncMgr.TaskStatus.cancelled 5 (by decide)

/-- Recording an event id and immediately sweeping (the order both handlers
use) leaves the id in the record set: its entry carries the current timestamp,
whose age is zero. -/
theorem seen_after_record_and_sweep (events : List (String × Nat))
    (event_id : String) (now : Nat) :
    AppFS.seenEvent
      (AppFS.clean_old_events (AppFS.recordEvent events event_id now) now)
      event_id = true := by
  unfold AppFS.recordEvent
  by_cases hp : events.any (fun e => e.1 == event_id) = true
  · rw [if_pos hp]
    rw [List.any_eq_true] at hp
    obtain ⟨e, he, heq⟩ := hp
    rw [beq_iff_eq] at heq
    simp only [AppFS.seenEvent, AppFS.clean_old_events, List.any_eq_true,
      List.mem_filter, List.mem_map]
    refine ⟨(e.1, now), ⟨⟨e, he, ?_⟩, ?_⟩, ?_⟩
    · simp [heq]
    · simp
    · simp [heq]
  · rw [if_neg hp]
    simp only [AppFS.seenEvent, AppFS.clean_old_events, List.any_eq_true,
      List.mem_filter]
    exact ⟨(event_id, now), ⟨List.mem_append_right _ (List.mem_singleton.mpr rfl),
      by simp⟩, by simp⟩

/-- C6 counterexample: the seen check is a bare membership test, so an entry
recorded 100 seconds ago — long past the 60-second expiry — still reads as
seen when no sweep has intervened, contradicting the claimed equivalence with
"recorded and not yet expired". -/
theorem seen_check_ignores_expiry :
    ¬ (AppFS.seenEvent [("a:1", 0)] "a:1" =
        AppFS.recordedUnexpired [("a:1", 0)] "a:1" 100) := by
  decide

/-- C6 (amended): the seen check returns true iff the identifier is in the
record set, whether or not its entry has expired; when the set has just been
swept at the current time, the check returns true iff the identifier was
recorded at most 60 seconds ago — so a second arrival within the window is
reported seen, and once an entry is more than 60 seconds old a sweep removes
it and the check returns false. -/
theorem seen_iff_membership_and_after_sweep (events : List (String × Nat))
    (event_id : String) (now : Nat) :
    (AppFS.seenEvent events event_id = true ↔
      ∃ t, (event_id, t) ∈ events) ∧
    (AppFS.seenEvent (AppFS.clean_old_events events now) event_id = true ↔
      ∃ t, (event_id, t) ∈ events ∧ now - t ≤ AppFS.EVENT_EXPIRY_TIME) := by
  constructor
  · rw [AppFS.seenEvent, List.any_eq_true]
    constructor
    · rintro ⟨e, he, heq⟩
      rw [beq_iff_eq] at heq
      exact ⟨e.2, by rw [← heq]; exact he⟩
    · rintro ⟨t, ht⟩
      exact ⟨(event_id, t), ht, by simp⟩
  · rw [AppFS.seenEvent, List.any_eq_true]
    constructor
    · rintro ⟨e, he, heq⟩
      rw [beq_iff_eq] at heq
      rw [AppFS.clean_old_events, List.mem_filter] at he
      refine ⟨e.2, by rw [← heq]; exact he.1, ?_⟩
      have := he.2
      simpa [AppFS.EVENT_EXPIRY_TIME, Nat.not_lt] using this
    · rintro ⟨t, ht, hage⟩
      refine ⟨(event_id, t), ?_, by simp⟩
      rw [AppFS.clean_old_events, List.mem_filter]
      exact ⟨ht, by simpa [AppFS.EVENT_EXPIRY_TIME, Nat.not_lt] using hage⟩

/-- C7: while an event identifier sits in the record set, a webhook delivery
bearing it — as an app_mention or as a message — returns without invoking the
pipeline; and the sweep removes exactly the entries whose age exceeds the
60-second window, leaving every younger entry recorded. -/
theorem recorded_event_not_reprocessed (events : List (String × Nat))
    (ev : AppFS.SlackEvent) (bot_user_id : String) (now : Nat)
    (h : AppFS.seenEvent events (AppFS.eventIdOf ev) = true) :
    (AppFS.handle_app_mention events ev now).invoked = false ∧
    (AppFS.handle_message events ev bot_user_id now).invoked = false ∧
    (∀ e : String × Nat, e ∈ AppFS.clean_old_events events now ↔
      e ∈ events ∧ now - e.2 ≤ AppFS.EVENT_EXPIRY_TIME) := by
  refine ⟨?_, ?_, ?_⟩
  · simp [AppFS.handle_app_mention, h]
  · unfold AppFS.handle_message
    split
    · rfl
    · split
      · rfl
      · split
        · rfl
        · simp [h]
  · intro e
    rw [AppFS.clean_old_events, List.mem_filter]
    simp [AppFS.EVENT_EXPIRY_TIME, Nat.not_lt]

/-- Witness for C7: a concrete recorded identifier and a matching event. -/
theorem recorded_event_not_reprocessed_witness :
    (AppFS.handle_app_mention [("a:1", 0)]
        ⟨"a", "1", none, none, none, "hello"⟩ 5).invoked = false ∧
    (AppFS.handle_message [("a:1", 0)]
        ⟨"a", "1", none, none, none, "hello"⟩ "B" 5).invoked = false ∧
    (∀ e : String × Nat, e ∈ AppFS.clean_old_events [("a:1", 0)] 5 ↔
      e ∈ [("a:1", 0)] ∧ 5 - e.2 ≤ AppFS.EVENT_EXPIRY_TIME) :=
  recorded_event_not_reprocessed [("a:1", 0)]
    ⟨"a", "1", none, none, none, "hello"⟩ "B" 5 (by decide)

/-- C10: a human Slack message mentioning the bot arrives as a message event
and an app_mention event with the same derived identifier.  When the message
handler runs first, it records the identifier and only then notices the bot
mention and skips; the app_mention handler then finds the identifier already
recorded and returns.  Neither handler invokes the pipeline: the mention is
never processed. -/
theorem mention_lost_when_message_handler_runs_first
    (events : List (String × Nat)) (ev : AppFS.SlackEvent)
    (bot_user_id : String) (now1 now2 : Nat)
    (h1 : ev.subtype = none) (h2 : ev.bot_id = none) (h3 : ev.thread_ts = none)
    (h4 : AppFS.seenEvent events (AppFS.eventIdOf ev) = false)
    (h5 : AppFS.strContains ev.text "<@" = true)
    (h6 : AppFS.strContains ev.text ("<@" ++ bot_user_id ++ ">") = true) :
    (AppFS.handle_message events ev bot_user_id now1).invoked = false ∧
    AppFS.seenEvent (AppFS.handle_message events ev bot_user_id now1).events
      (AppFS.eventIdOf ev) = true ∧
    (AppFS.handle_app_mention
        (AppFS.handle_message events ev bot_user_id now1).events
        ev now2).invoked = false := by
  have hm : AppFS.handle_message events ev bot_user_id now1 =
      { events := AppFS.clean_old_events
          (AppFS.recordEvent events (AppFS.eventIdOf ev) now1) now1,
        invoked := false } := by
    unfold AppFS.handle_message
    simp [h1, h2, h3, h4, h5, h6]
  have hseen : AppFS.seenEvent
      (AppFS.handle_message events ev bot_user_id now1).events
      (AppFS.eventIdOf ev) = true := by
    rw [hm]
    exact seen_after_record_and_sweep events (AppFS.eventIdOf ev) now1
  refine ⟨by rw [hm], hseen, ?_⟩
  simp [AppFS.handle_app_mention, hseen]

/-- Witness for C10: a concrete mention text `<@B> hi` delivered to both
handlers. -/
theorem mention_lost_when_message_handler_runs_first_witness :
    (AppFS.handle_message [] ⟨"a", "1", none, none, none, "<@B> hi"⟩
        "B" 5).invoked = false ∧
    AppFS.seenEvent
      (AppFS.handle_message [] ⟨"a", "1", none, none, none, "<@B> hi"⟩
          "B" 5).events
      (AppFS.eventIdOf ⟨"a", "1", none, none, none, "<@B> hi"⟩) = true ∧
    (AppFS.handle_app_mention
        (AppFS.handle_message [] ⟨"a", "1", none, none, none, "<@B> hi"⟩
            "B" 5).events
        ⟨"a", "1", none, none, none, "<@B> hi"⟩ 6).invoked = false :=
  mention_lost_when_message_handler_runs_first []
    ⟨"a", "1", none, none, none, "<@B> hi"⟩ "B" 5 6 rfl rfl rfl
    (by decide) (by decide) (by decide)

/-- C8: a `/chat` request whose JSON body has a `message` but no `agent_id`
gets a 400 response carrying an error field, and the message pipeline is not
invoked. -/
theorem chat_missing_agent_id (d : ChatApi.ChatData) (uid : Option String)
    (env : ChatApi.Env) (msg : String)
    (hmsg : d.message = some msg) (hagent : d.agent_id = none) :
    (ChatApi.chat_api (some d) uid env).status = 400 ∧
    (ChatApi.chat_api (some d) uid env).errorField.isSome = true ∧
    (ChatApi.chat_api (some d) uid env).pipelineInvoked = false := by
  simp [ChatApi.chat_api, ChatApi.pyFalsy, hagent]

/-- Witness for C8 at the request body from the spec scenario,
`\x7b"message": "hi"\x7d` with no agent id. -/
theorem chat_missing_agent_id_witness :
    (ChatApi.chat_api (some ⟨none, some "hi", none⟩) none
        ⟨fun _ => true, fun s => Except.ok s⟩).status = 400 ∧
    (ChatApi.chat_api (some ⟨none, some "hi", none⟩) none
        ⟨fun _ => true, fun s => Except.ok s⟩).errorField.isSome = true ∧
    (ChatApi.chat_api (some ⟨none, some "hi", none⟩) none
        ⟨fun _ => true, fun s => Except.ok s⟩).pipelineInvoked = false :=
  chat_missing_agent_id ⟨none, some "hi", none⟩ none
    ⟨fun _ => true, fun s => Except.ok s⟩ "hi" rfl rfl

/-- C9: when the persistence load raises, the pipeline proceeds with an empty
history and still returns the generated reply; when the persistence save
raises, the failure is logged and swallowed; neither failure aborts
`generate_response` or propagates to the caller. -/
theorem pipeline_survives_persistence_failures (message : String)
    (cid : Option String) (env : AgencyM.Env) (le se : String)
    (hl : env.load cid = AgencyM.LoadResult.raised le)
    (hs : env.save cid = Except.error se) :
    AgencyM.get_threads_from_db (env.load cid) = [] ∧
    (AgencyM.generate_response message cid env).1 = env.completion message [] ∧
    (AgencyM.generate_response message cid env).2 =
      ["Error saving threads to database: " ++ se] := by
  simp [AgencyM.generate_response, AgencyM.get_threads_from_db,
        AgencyM.save_threads_to_db, hl, hs]

/-- Witness for C9: a concrete environment whose load and save both raise. -/
theorem pipeline_survives_persistence_failures_witness :
    AgencyM.get_threads_from_db
        ((⟨fun _ => AgencyM.LoadResult.raised "load down",
           fun _ => Except.error "save down",
           fun msg _ => "reply to " ++ msg⟩ : AgencyM.Env).load (some "c1")) = [] ∧
    (AgencyM.generate_response "hi" (some "c1")
        ⟨fun _ => AgencyM.LoadResult.raised "load down",
         fun _ => Except.error "save down",
         fun msg _ => "reply to " ++ msg⟩).1 =
      (⟨fun _ => AgencyM.LoadResult.raised "load down",
        fun _ => Except.error "save down",
        fun msg _ => "reply to " ++ msg⟩ : AgencyM.Env).completion "hi" [] ∧
    (AgencyM.generate_response "hi" (some "c1")
        ⟨fun _ => AgencyM.LoadResult.raised "load down",
         fun _ => Except.error "save down",
         fun msg _ => "reply to " ++ msg⟩).2 =
      ["Error saving threads to database: " ++ "save down"] :=
  pipeline_survives_persistence_failures "hi" (some "c1")
    ⟨fun _ => AgencyM.LoadResult.raised "load down",
     fun _ => Except.error "save down",
     fun msg _ => "reply to " ++ msg⟩ "load down" "save down" rfl rfl

